import Mathlib

/-!
Shallow embedding of the battleship game-server core (match state, ship-placement
validation, outcome evaluation, cloud-event emission) together with proofs of the
specified properties.

Conventions used throughout:
* JavaScript numbers appearing in the occupancy grid are modelled as `Option Nat`,
  where `some n` is the number `n` and `none` stands for `NaN`/`undefined` (the two
  are indistinguishable through every operation the validator performs on grid
  cells: both fail `> 1`, both pass `!== 0`, and both become `NaN` when incremented).
* JavaScript string truthiness is modelled as "not the empty string".
* Functions that `throw` are modelled with `Except`.
-/

namespace Battleship

/-! ### Match state (`MatchInstance`)

The `uuid` handled by the `Model` base class is orthogonal to every property below
and is omitted from the state. -/

structure MatchInstanceData where
  playerA : String
  playerB : Option String
  ready : Bool
deriving DecidableEq

structure MatchInstance where
  playerA : String
  playerB : Option String
  ready : Bool
deriving DecidableEq

/-- The constructor `new MatchInstance(playerA, playerB?, ready = false)`. -/
def MatchInstance.make (playerA : String) (playerB : Option String := none)
    (ready : Bool := false) : MatchInstance :=
  { playerA := playerA, playerB := playerB, ready := ready }

/-- `MatchInstance.from(data)`. -/
def MatchInstance.from (data : MatchInstanceData) : MatchInstance :=
  MatchInstance.make data.playerA data.playerB data.ready

/-- `addPlayer(player)`: unconditionally assigns `playerB`, then sets `ready` when
`this.playerA && this.playerB` is truthy (both non-empty strings). -/
def MatchInstance.addPlayer (m : MatchInstance) (playerUUID : String) : MatchInstance :=
  if m.playerA ≠ "" ∧ playerUUID ≠ "" then
    { m with playerB := some playerUUID, ready := true }
  else
    { m with playerB := some playerUUID }

/-- `isJoinable()`: `this.playerB === undefined`. -/
def MatchInstance.isJoinable (m : MatchInstance) : Bool :=
  m.playerB.isNone

inductive MatchErr where
  | notAParticipant
deriving DecidableEq

/-- `getPlayerOpponentUUID(player)`: compares the queried uuid against both slots and
throws when it matches neither. -/
def MatchInstance.getPlayerOpponentUUID (m : MatchInstance) (playerUUID : String) :
    Except MatchErr (Option String) :=
  if playerUUID = m.playerA then Except.ok m.playerB
  else if some playerUUID = m.playerB then Except.ok (some m.playerA)
  else Except.error MatchErr.notAParticipant

/-! ### Outcome evaluator (`isGameOverForPlayer`)

The `Player` model lives outside these sources; only the shape read by
`isGameOverForPlayer` matters: an optional ship-position record holding, per ship,
a list of cells each carrying a `hit` boolean. -/

structure StoredCell where
  hit : Bool
deriving DecidableEq

structure StoredShip where
  cells : List StoredCell
deriving DecidableEq

structure StoredShipPositions where
  battleship : StoredShip
  destroyer : StoredShip
  submarine : StoredShip
deriving DecidableEq

structure Player where
  shipPositionData : Option StoredShipPositions
deriving DecidableEq

/-- All cells of the record, in `Object.values(...).map(s => s.cells).flat()` order. -/
def allStoredCells (sp : StoredShipPositions) : List StoredCell :=
  sp.battleship.cells ++ sp.destroyer.cells ++ sp.submarine.cells

/-- `isGameOverForPlayer(player)`: `false` when no record is stored, otherwise
`flat().every(c => c.hit === true)` over all cells of all ships. -/
def isGameOverForPlayer (player : Player) : Bool :=
  match player.shipPositionData with
  | none => false
  | some sp => (allStoredCells sp).all (fun c => c.hit == true)

/-! ### Cloud events (`src/cloud-events/index.ts`)

`sendEvent` performs HTTP delivery; the pure content is the `(type, data)` pair each
notification function passes to it. -/

inductive CloudEventType where
  | hit
  | miss
  | sink
  | win
  | lose
  | bonus
deriving DecidableEq

structure WinLoseEventData where
  game : String
  matchId : String
  player : String
deriving DecidableEq

/-- `win(data)` calls `sendEvent(CloudEventType.Win, data)`. -/
def winEvent (data : WinLoseEventData) : CloudEventType × WinLoseEventData :=
  (CloudEventType.win, data)

/-- `lose(data)` also calls `sendEvent(CloudEventType.Win, data)`. -/
def loseEvent (data : WinLoseEventData) : CloudEventType × WinLoseEventData :=
  (CloudEventType.win, data)

/-! ### Ship-placement validation (`validations.ts`)

`GAME_GRID_SIZE` is imported from `config` (outside these sources), so all
definitions here take the board dimension `N` as an explicit parameter. -/

inductive ShipType where
  | battleship
  | destroyer
  | submarine
deriving DecidableEq

/-- Ship widths: `ShipSize` maps each type to a `CellArea` string (`4x1`, `3x1`,
`2x1`) whose width `getCellAreaWidthAndHeight` (in `utils`, outside these sources)
parses back to a number; the parsed widths are recorded here directly, which also
makes the `isNaN(size)` guard in `populateGridWithShipData` unreachable. -/
def shipLength : ShipType → Nat
  | ShipType.battleship => 4
  | ShipType.destroyer => 3
  | ShipType.submarine => 2

/-- `EXPECTED_OCCUPIED_SQUARES`: the widths of all entries of `ShipSize` summed by
`reduce`. -/
def EXPECTED_OCCUPIED_SQUARES : Nat :=
  shipLength ShipType.battleship + shipLength ShipType.destroyer +
    shipLength ShipType.submarine

/-- One entry of the untrusted payload: `origin` is a JSON array of numbers and
`orientation` an arbitrary string. -/
structure ShipData where
  origin : List Int
  orientation : String
deriving DecidableEq

/-- The untrusted placement payload: the three ship keys may each be absent, and the
object may carry unknown keys (rejected since `allowUnknown: false`). -/
structure PlacementPayload where
  battleship : Option ShipData
  destroyer : Option ShipData
  submarine : Option ShipData
  unknownKeys : List String
deriving DecidableEq

inductive FieldErr where
  | missing (ship : ShipType)
  | unknownKey (k : String)
  | originLength (ship : ShipType)
  | originRange (ship : ShipType) (idx : Nat)
deriving DecidableEq

/-- Per-item validation of `Joi.array().items(Joi.number().min(0).max(N-1))`: each
item is checked independently and every violation collected (`abortEarly: false`). -/
def originItemViolations (N : Nat) (ship : ShipType) : Nat → List Int → List FieldErr
  | _, [] => []
  | i, x :: rest =>
    (if x < 0 ∨ (N : Int) - 1 < x then [FieldErr.originRange ship i] else []) ++
      originItemViolations N ship (i + 1) rest

/-- `ShipSchema` violations for one present ship entry. `origin` must hold exactly
two items (`min(2).max(2)`), each within `[0, N-1]`. `orientation` is
`Joi.string().allow(Vertical, Horizontal)`: Joi's `allow` only whitelists extra
values and restricts nothing, so every string passes and no orientation violation
is possible. -/
def shipSchemaViolations (N : Nat) (ship : ShipType) (d : ShipData) : List FieldErr :=
  (if d.origin.length < 2 ∨ 2 < d.origin.length then [FieldErr.originLength ship]
    else []) ++ originItemViolations N ship 0 d.origin

/-- `ShipsLockedSchema` violations for the whole payload: each ship key is required;
unknown keys are rejected; all violations are accumulated (`abortEarly: false`). -/
def shipsLockedSchemaViolations (N : Nat) (p : PlacementPayload) : List FieldErr :=
  (match p.battleship with
    | none => [FieldErr.missing ShipType.battleship]
    | some d => shipSchemaViolations N ShipType.battleship d) ++
  (match p.destroyer with
    | none => [FieldErr.missing ShipType.destroyer]
    | some d => shipSchemaViolations N ShipType.destroyer d) ++
  (match p.submarine with
    | none => [FieldErr.missing ShipType.submarine]
    | some d => shipSchemaViolations N ShipType.submarine d) ++
  p.unknownKeys.map FieldErr.unknownKey

/-- A grid cell: `some n` is the JavaScript number `n`; `none` stands for
`NaN`/`undefined` (indistinguishable through every operation performed on cells). -/
abbrev Cell := Option Nat

abbrev Grid := List (List Cell)

/-- `generateEmptyGridArray()`: N rows of N zeroes. -/
def generateEmptyGridArray (N : Nat) : Grid :=
  List.replicate N (List.replicate N (some 0))

/-- JavaScript `v += 1` on a cell: numbers increment; `NaN`/`undefined` become `NaN`. -/
def incJs : Cell → Cell
  | some n => some (n + 1)
  | none => none

/-- JavaScript `row[col] += 1`: within range it updates in place; past the end the
array grows to length `col + 1`, the skipped positions becoming holes and position
`col` becoming `NaN` (`undefined + 1`). -/
def writeCell (row : List Cell) (col : Nat) : List Cell :=
  if h : col < row.length then row.set col (incJs (row.get ⟨col, h⟩))
  else row ++ List.replicate (col - row.length) none ++ [none]

inductive VErr where
  | schemaErr (violations : List FieldErr)
  | typeErr
  | overEdge
  | overlap (col row : Nat)
  | occupancy (occupied : Nat)
deriving DecidableEq

/-- `grid[row][col] += 1`: reading `grid[row]` past the grid yields `undefined`, and
indexing into it throws a `TypeError` (`VErr.typeErr`). -/
def gridInc (grid : Grid) (rowIdx colIdx : Nat) : Except VErr Grid :=
  if h : rowIdx < grid.length then
    Except.ok (grid.set rowIdx (writeCell (grid.get ⟨rowIdx, h⟩) colIdx))
  else Except.error VErr.typeErr

/-- The `(row, col)` squares written by `populateGridWithShipData`, in loop order:
`rootX = origin[0]`, `rootY = origin[1]`; an orientation equal to `horizontal`
extends along columns, anything else (the `else` branch) along rows. Reading
`origin[k]` and the `Nat` conversion are exact for every payload that passed the
schema (exactly two items, both `≥ 0`). -/
def shipCells (size : Nat) (ship : ShipData) : List (Nat × Nat) :=
  (List.range size).map fun i =>
    if ship.orientation == "horizontal" then
      ((ship.origin.getD 1 0).toNat, (ship.origin.getD 0 0).toNat + i)
    else
      ((ship.origin.getD 1 0).toNat + i, (ship.origin.getD 0 0).toNat)

/-- Runs a sequence of `grid[row][col] += 1` writes, stopping at the first throw. -/
def incrAll : List (Nat × Nat) → Grid → Except VErr Grid
  | [], g => Except.ok g
  | rc :: rest, g =>
    match gridInc g rc.1 rc.2 with
    | Except.ok g1 => incrAll rest g1
    | Except.error e => Except.error e

/-- `populateGridWithShipData(size, ship, grid)`. -/
def populateGridWithShipData (size : Nat) (ship : ShipData) (grid : Grid) :
    Except VErr Grid :=
  incrAll (shipCells size ship) grid

/-- `val > 1` on a cell (`NaN > 1` is false in JavaScript). -/
def cellGtOne : Cell → Bool
  | some n => decide (1 < n)
  | none => false

/-- `val !== 0` on a cell (`NaN !== 0` is true in JavaScript). -/
def cellNeZero : Cell → Bool
  | some n => decide (n ≠ 0)
  | none => true

/-- The inner `for (j ...)` loop of the consistency pass over one row: throws the
overlap error at the first cell exceeding 1, otherwise counts occupied squares. -/
def scanRow (rowIdx : Nat) : Nat → List Cell → Nat → Except VErr Nat
  | _, [], occ => Except.ok occ
  | j, c :: rest, occ =>
    if cellGtOne c then Except.error (VErr.overlap j rowIdx)
    else scanRow rowIdx (j + 1) rest (occ + if cellNeZero c then 1 else 0)

/-- The outer `for (i ...)` loop of the consistency pass: a row whose length differs
from `N` throws the over-the-edge error before its cells are examined. -/
def scanGrid (N : Nat) : Nat → List (List Cell) → Nat → Except VErr Nat
  | _, [], occ => Except.ok occ
  | i, row :: rest, occ =>
    if row.length ≠ N then Except.error VErr.overEdge
    else
      match scanRow i 0 row occ with
      | Except.ok occ1 => scanGrid N (i + 1) rest occ1
      | Except.error e => Except.error e

/-- `validateShipPlacement(placementData)`: schema pass, then grid population in the
payload's key order (Battleship, Destroyer, Submarine), then the consistency pass,
then the occupied-square count check; on success the original payload is returned
unchanged (the source only casts it). -/
def validateShipPlacement (N : Nat) (p : PlacementPayload) :
    Except VErr PlacementPayload :=
  let errs := shipsLockedSchemaViolations N p
  if errs = [] then
    let b := p.battleship.getD ⟨[], ""⟩
    let d := p.destroyer.getD ⟨[], ""⟩
    let s := p.submarine.getD ⟨[], ""⟩
    (populateGridWithShipData (shipLength ShipType.battleship) b
        (generateEmptyGridArray N)).bind fun g1 =>
    (populateGridWithShipData (shipLength ShipType.destroyer) d g1).bind fun g2 =>
    (populateGridWithShipData (shipLength ShipType.submarine) s g2).bind fun g3 =>
    (scanGrid N 0 g3 0).bind fun occupiedSquares =>
    if occupiedSquares ≠ EXPECTED_OCCUPIED_SQUARES then
      Except.error (VErr.occupancy occupiedSquares)
    else Except.ok p
  else Except.error (VErr.schemaErr errs)

/-- The cell stored at `grid[r][c]` as JavaScript reads it: `none` both for `NaN`
holes and for indices past the stored row (plain `undefined`), which the validator
treats identically. -/
def cellAt (g : Grid) (r c : Nat) : Cell :=
  (g.getD r []).getD c none

/-- The length of `grid[r]` (rows can grow past `N` when a horizontal ship
overflows). -/
def rowLen (g : Grid) (r : Nat) : Nat :=
  (g.getD r []).length

/-- A ship of the given width, origin `(x, y)` and orientation string has a valid
orientation and lies fully inside the N-by-N board. -/
def shipWithin (N size x y : Nat) (orientation : String) : Prop :=
  (orientation = "horizontal" ∧ x + size ≤ N ∧ y < N) ∨
    (orientation = "vertical" ∧ y + size ≤ N ∧ x < N)

instance (N size x y : Nat) (o : String) : Decidable (shipWithin N size x y o) := by
  unfold shipWithin
  infer_instance

/-! Concrete payloads used by counterexamples and witnesses (board dimension 5). -/

/-- A payload whose Battleship starts in bounds at (0,2) but, being vertical and
4 long, extends to row 5 on a 5-wide board. -/
def cxVerticalOOB : PlacementPayload :=
  ⟨some ⟨[0, 2], "vertical"⟩, some ⟨[1, 0], "horizontal"⟩,
    some ⟨[1, 1], "horizontal"⟩, []⟩

/-- A payload where Destroyer and Submarine overlap (rows 2, columns 0–1) while the
Battleship sticks out horizontally past the edge in row 0. -/
def cxMaskedOverlap : PlacementPayload :=
  ⟨some ⟨[3, 0], "horizontal"⟩, some ⟨[0, 2], "horizontal"⟩,
    some ⟨[0, 2], "horizontal"⟩, []⟩

/-- A payload whose Battleship carries the invalid orientation string `diagonal`;
the remaining geometry is a valid, non-overlapping layout on a 5-wide board once
`diagonal` falls into the vertical branch. -/
def badOrientationPayload : PlacementPayload :=
  ⟨some ⟨[0, 0], "diagonal"⟩, some ⟨[2, 0], "horizontal"⟩,
    some ⟨[2, 2], "horizontal"⟩, []⟩

/-- A fully valid, non-overlapping, in-bounds payload on a 5-wide board. -/
def validPayload5 : PlacementPayload :=
  ⟨some ⟨[0, 0], "vertical"⟩, some ⟨[2, 0], "horizontal"⟩,
    some ⟨[2, 2], "horizontal"⟩, []⟩

/-- An in-bounds payload where Battleship and Destroyer share the square (0,0). -/
def overlapPayload5 : PlacementPayload :=
  ⟨some ⟨[0, 0], "vertical"⟩, some ⟨[0, 0], "horizontal"⟩,
    some ⟨[2, 2], "horizontal"⟩, []⟩

/-- A payload whose Battleship sticks out horizontally (columns 3–6 in row 0) while
the other two ships are in bounds and no two ships share a square. -/
def horizOOBPayload : PlacementPayload :=
  ⟨some ⟨[3, 0], "horizontal"⟩, some ⟨[0, 2], "horizontal"⟩,
    some ⟨[0, 1], "horizontal"⟩, []⟩

end Battleship

namespace Battleship

/-! ### Theorems: match state, outcome evaluator, cloud events -/

/-- C10: `addPlayer` always writes the given uuid into the `playerB` slot, leaves
`playerA` untouched, never fails (its type is total), and leaves the match
non-joinable — in particular on an already-full match it silently replaces the
second participant. -/
theorem addPlayer_overwrites_playerB (m : MatchInstance) (u : String) :
    (m.addPlayer u).playerA = m.playerA ∧
    (m.addPlayer u).playerB = some u ∧
    (m.addPlayer u).isJoinable = false := by
  unfold MatchInstance.addPlayer MatchInstance.isJoinable
  by_cases h : m.playerA ≠ "" ∧ u ≠ "" <;> simp [h]

/-- C6 counterexample: `MatchInstance.from` can produce a state with both
participant identities present and the readiness flag still `false`, so the
readiness-iff-both-present invariant fails on reachable states. -/
theorem ready_invariant_fails_on_from :
    ((MatchInstance.from ⟨"a", some "b", false⟩).playerA ≠ "" ∧
      (MatchInstance.from ⟨"a", some "b", false⟩).playerB = some "b") ∧
    (MatchInstance.from ⟨"a", some "b", false⟩).ready = false := by
  constructor
  · exact ⟨by decide, rfl⟩
  · rfl

lemma addPlayer_playerB_isSome (m : MatchInstance) (u : String) :
    (m.addPlayer u).playerB = some u := by
  unfold MatchInstance.addPlayer
  split <;> rfl

lemma addPlayer_keeps_ready (m : MatchInstance) (u : String) (h : m.ready = true) :
    (m.addPlayer u).ready = true := by
  unfold MatchInstance.addPlayer
  split
  · rfl
  · exact h

lemma addPlayer_ready_of_truthy (m : MatchInstance) (u : String)
    (hA : m.playerA ≠ "") (hu : u ≠ "") : (m.addPlayer u).ready = true := by
  unfold MatchInstance.addPlayer
  rw [if_pos ⟨hA, hu⟩]

lemma foldl_addPlayer_keeps (us : List String) (m : MatchInstance)
    (h1 : m.ready = true) (h2 : m.playerB.isSome) :
    (us.foldl MatchInstance.addPlayer m).ready = true ∧
      (us.foldl MatchInstance.addPlayer m).playerB.isSome := by
  induction us generalizing m with
  | nil => exact ⟨h1, h2⟩
  | cons v vs ih =>
    simp only [List.foldl_cons]
    exact ih (m.addPlayer v) (addPlayer_keeps_ready m v h1)
      (by rw [addPlayer_playerB_isSome]; rfl)

/-- C6 (amended): starting from a fresh single-player match (non-empty creator uuid,
no second player, readiness `false`) and applying any sequence of `addPlayer` calls
with non-empty uuids, readiness is `true` exactly when the second slot is filled. -/
theorem ready_iff_playerB_of_addPlayer_runs (a : String) (ha : a ≠ "")
    (us : List String) (hus : ∀ u ∈ us, u ≠ "") :
    ((us.foldl MatchInstance.addPlayer (MatchInstance.make a)).ready = true ↔
      (us.foldl MatchInstance.addPlayer (MatchInstance.make a)).playerB.isSome) := by
  cases us with
  | nil =>
    constructor
    · intro h; exact absurd h (by simp [MatchInstance.make])
    · intro h; exact absurd h (by simp [MatchInstance.make])
  | cons u rest =>
    have hu : u ≠ "" := hus u (by simp)
    have h1 : ((MatchInstance.make a).addPlayer u).ready = true :=
      addPlayer_ready_of_truthy _ u ha hu
    have h2 : ((MatchInstance.make a).addPlayer u).playerB.isSome := by
      rw [addPlayer_playerB_isSome]; rfl
    have res := foldl_addPlayer_keeps rest ((MatchInstance.make a).addPlayer u) h1 h2
    simp only [List.foldl_cons]
    exact ⟨fun _ => res.2, fun _ => res.1⟩

/-- C6 amended witness: at `a := "a"`, adding players `"b"` then `"c"`, readiness
agrees with presence of the second participant. -/
theorem ready_iff_playerB_witness :
    (["b", "c"].foldl MatchInstance.addPlayer (MatchInstance.make "a")).ready = true ↔
      (["b", "c"].foldl MatchInstance.addPlayer (MatchInstance.make "a")).playerB.isSome :=
  ready_iff_playerB_of_addPlayer_runs "a" (by decide) ["b", "c"] (by decide)

/-- C8: in a match holding participants `A` (first slot) and `B` (second slot),
`getPlayerOpponentUUID` returns `B` for `A`, `A` for `B`, and throws the
not-a-participant error for every other uuid. -/
theorem getPlayerOpponentUUID_spec (m : MatchInstance) (A B : String)
    (hA : m.playerA = A) (hB : m.playerB = some B) :
    m.getPlayerOpponentUUID A = Except.ok (some B) ∧
    m.getPlayerOpponentUUID B = Except.ok (some A) ∧
    (∀ c : String, c ≠ A → c ≠ B → m.getPlayerOpponentUUID c = Except.error MatchErr.notAParticipant) := by
  refine ⟨?_, ?_, ?_⟩
  · simp [MatchInstance.getPlayerOpponentUUID, hA, hB]
  · by_cases hBA : B = A
    · simp [MatchInstance.getPlayerOpponentUUID, hA, hB, hBA]
    · simp [MatchInstance.getPlayerOpponentUUID, hA, hB, hBA]
  · intro c hcA hcB
    simp [MatchInstance.getPlayerOpponentUUID, hA, hB, hcA, hcB]

/-- C8 witness: a concrete match with participants `"alice"` and `"bob"`. -/
theorem getPlayerOpponentUUID_witness :
    (MatchInstance.make "alice" (some "bob")).getPlayerOpponentUUID "alice" = Except.ok (some "bob") ∧
    (MatchInstance.make "alice" (some "bob")).getPlayerOpponentUUID "bob" = Except.ok (some "alice") ∧
    (MatchInstance.make "alice" (some "bob")).getPlayerOpponentUUID "carol" = Except.error MatchErr.notAParticipant := by
  have h := getPlayerOpponentUUID_spec (MatchInstance.make "alice" (some "bob")) "alice" "bob" rfl rfl
  exact ⟨h.1, h.2.1, h.2.2 "carol" (by decide) (by decide)⟩

/-- C7: the loss predicate returns `false` when the ship-position record is absent
and, when it is present, returns `true` exactly when every cell of every ship has
its hit flag set. -/
theorem isGameOverForPlayer_spec :
    isGameOverForPlayer ⟨none⟩ = false ∧
    ∀ sp : StoredShipPositions,
      (isGameOverForPlayer ⟨some sp⟩ = true ↔ ∀ c ∈ allStoredCells sp, c.hit = true) := by
  refine ⟨rfl, fun sp => ?_⟩
  simp [isGameOverForPlayer, List.all_eq_true]

/-- C2 counterexample: a present ship-position record with zero cells in total makes
`isGameOverForPlayer` report `true` (JavaScript `[].every` is vacuously true), not
the `false` the claim requires. -/
theorem isGameOverForPlayer_empty_cells_true :
    isGameOverForPlayer ⟨some ⟨⟨[]⟩, ⟨[]⟩, ⟨[]⟩⟩⟩ = true := rfl

/-- C2 (amended): whenever the record is present but every ship's cell list is
empty, the loss predicate returns `true` — the empty collection IS treated as
"all cells hit"; the guard the spec demands is absent. -/
theorem isGameOverForPlayer_vacuous (sp : StoredShipPositions)
    (hb : sp.battleship.cells = []) (hd : sp.destroyer.cells = [])
    (hs : sp.submarine.cells = []) :
    isGameOverForPlayer ⟨some sp⟩ = true := by
  simp [isGameOverForPlayer, allStoredCells, hb, hd, hs]

/-- C2 amended witness: the all-empty record. -/
theorem isGameOverForPlayer_vacuous_witness :
    isGameOverForPlayer ⟨some ⟨⟨[]⟩, ⟨[]⟩, ⟨[]⟩⟩⟩ = true :=
  isGameOverForPlayer_vacuous ⟨⟨[]⟩, ⟨[]⟩, ⟨[]⟩⟩ rfl rfl rfl

/-- C9: for every input, the lose notification emits exactly what the win
notification emits — the `win` cloud-event type, not a distinct lose type. -/
theorem loseEvent_reuses_win_type (d : WinLoseEventData) :
    loseEvent d = winEvent d ∧ (loseEvent d).1 = CloudEventType.win ∧
    (loseEvent d).1 ≠ CloudEventType.lose := by
  exact ⟨rfl, rfl, by simp [loseEvent]⟩

/-! ### Theorems: ship-placement validation -/

section GridLemmas

lemma getD_set_lt {α : Type} (l : List α) (i : Nat) (a d : α) (h : i < l.length)
    (j : Nat) : (l.set i a).getD j d = if j = i then a else l.getD j d := by
  rw [List.getD_eq_getElem?_getD, List.getD_eq_getElem?_getD]
  by_cases hj : j = i
  · subst hj
    rw [List.getElem?_set_eq_of_lt a h]
    simp
  · rw [List.getElem?_set_ne fun he => hj he.symm]
    simp [hj]

lemma getD_replicate {α : Type} (n k : Nat) (a d : α) :
    (List.replicate n a).getD k d = if k < n then a else d := by
  rw [List.getD_eq_getElem?_getD, List.getElem?_replicate]
  split <;> rfl

lemma getD_get {α : Type} (l : List α) (d : α) (k : Nat) (h : k < l.length) :
    l.getD k d = l.get ⟨k, h⟩ := by
  rw [List.getD_eq_getElem?_getD, List.getElem?_eq_getElem h]
  rfl

lemma writeCell_length (row : List Cell) (col : Nat) :
    (writeCell row col).length = max row.length (col + 1) := by
  unfold writeCell
  split
  case isTrue h => rw [List.length_set]; omega
  case isFalse h =>
    simp only [List.length_append, List.length_replicate, List.length_cons,
      List.length_nil]
    omega

lemma writeCell_getD (row : List Cell) (col k : Nat) :
    (writeCell row col).getD k none =
      if k = col then incJs (row.getD k none) else row.getD k none := by
  unfold writeCell
  split
  case isTrue h =>
    rw [getD_set_lt _ _ _ _ h]
    by_cases hk : k = col
    · subst hk
      rw [if_pos rfl, if_pos rfl, getD_get row none k h]
    · rw [if_neg hk, if_neg hk]
  case isFalse h =>
    push_neg at h
    have hlen : (row ++ List.replicate (col - row.length) (none : Cell)).length = col := by
      simp only [List.length_append, List.length_replicate]
      omega
    by_cases hk1 : k < row.length
    · rw [List.getD_append _ _ _ _ (by rw [hlen]; omega)]
      rw [List.getD_append _ _ _ _ hk1]
      rw [if_neg (by omega)]
    · push_neg at hk1
      have hrk : row.getD k none = none := List.getD_eq_default _ _ hk1
      by_cases hk2 : k = col
      · subst hk2
        rw [List.getD_append_right _ _ _ _ (by omega)]
        rw [hlen, if_pos rfl, hrk]
        simp [incJs]
      · by_cases hk3 : k < col
        · rw [List.getD_append _ _ _ _ (by rw [hlen]; omega)]
          rw [List.getD_append_right _ _ _ _ hk1]
          rw [getD_replicate, if_neg hk2, hrk]
          split <;> rfl
        · rw [List.getD_append_right _ _ _ _ (by rw [hlen]; omega)]
          rw [if_neg hk2, hrk, hlen]
          exact List.getD_eq_default _ _ (by simp; omega)

lemma gridInc_ok (g : Grid) (r0 c0 : Nat) (h : r0 < g.length) :
    gridInc g r0 c0 = Except.ok (g.set r0 (writeCell (g.get ⟨r0, h⟩) c0)) := by
  unfold gridInc
  rw [dif_pos h]

lemma gridInc_err (g : Grid) (r0 c0 : Nat) (h : g.length ≤ r0) :
    gridInc g r0 c0 = Except.error VErr.typeErr := by
  unfold gridInc
  rw [dif_neg (by omega)]

lemma of_gridInc_ok (g g' : Grid) (r0 c0 : Nat)
    (h : gridInc g r0 c0 = Except.ok g') :
    g'.length = g.length ∧
    (∀ r c, cellAt g' r c =
      if r = r0 ∧ c = c0 then incJs (cellAt g r c) else cellAt g r c) ∧
    (∀ r, rowLen g' r =
      if r = r0 then max (rowLen g r) (c0 + 1) else rowLen g r) := by
  unfold gridInc at h
  split at h
  case isFalse => exact absurd h (by simp)
  case isTrue hr =>
    rw [Except.ok.injEq] at h
    subst h
    refine ⟨List.length_set _ _ _, ?_, ?_⟩
    · intro r c
      unfold cellAt
      rw [getD_set_lt _ _ _ _ hr r]
      by_cases hrr : r = r0
      · subst hrr
        rw [if_pos rfl, writeCell_getD, getD_get g [] r hr]
        by_cases hc : c = c0
        · rw [if_pos hc, if_pos ⟨rfl, hc⟩]
        · rw [if_neg hc, if_neg (by tauto)]
      · rw [if_neg hrr, if_neg (by tauto)]
    · intro r
      unfold rowLen
      rw [getD_set_lt _ _ _ _ hr r]
      by_cases hrr : r = r0
      · subst hrr
        rw [if_pos rfl, if_pos rfl, writeCell_length, getD_get g [] r hr]
      · rw [if_neg hrr, if_neg hrr]

end GridLemmas

section IncrAllLemmas

lemma incJs_eq_map (x : Cell) : incJs x = x.map (· + 1) := by
  cases x <;> rfl

lemma incrAll_append (l1 l2 : List (Nat × Nat)) (g : Grid) :
    incrAll (l1 ++ l2) g = (incrAll l1 g).bind (incrAll l2) := by
  induction l1 generalizing g with
  | nil => rfl
  | cons rc rest ih =>
    show incrAll (rc :: (rest ++ l2)) g = _
    unfold incrAll
    cases hstep : gridInc g rc.1 rc.2 with
    | ok g1 => exact ih g1
    | error e => rfl

lemma incrAll_length (cells : List (Nat × Nat)) (g g' : Grid)
    (h : incrAll cells g = Except.ok g') : g'.length = g.length := by
  induction cells generalizing g with
  | nil =>
    unfold incrAll at h
    rw [Except.ok.injEq] at h
    rw [h]
  | cons rc rest ih =>
    unfold incrAll at h
    cases hstep : gridInc g rc.1 rc.2 with
    | ok g1 =>
      rw [hstep] at h
      rw [ih g1 h, (of_gridInc_ok g g1 rc.1 rc.2 hstep).1]
    | error e => rw [hstep] at h; exact absurd h (by simp)

lemma incrAll_err_of_oob (cells : List (Nat × Nat)) (g : Grid)
    (h : ∃ rc ∈ cells, g.length ≤ rc.1) :
    incrAll cells g = Except.error VErr.typeErr := by
  induction cells generalizing g with
  | nil => obtain ⟨rc, hm, _⟩ := h; exact absurd hm (by simp)
  | cons rc0 rest ih =>
    unfold incrAll
    by_cases h0 : g.length ≤ rc0.1
    · rw [gridInc_err g rc0.1 rc0.2 h0]
    · push_neg at h0
      rw [gridInc_ok g rc0.1 rc0.2 h0]
      set g1 := g.set rc0.1 (writeCell (g.get ⟨rc0.1, h0⟩) rc0.2) with hg1
      have hlen : g1.length = g.length := List.length_set _ _ _
      apply ih g1
      obtain ⟨rc, hm, hge⟩ := h
      rcases List.mem_cons.mp hm with he | ht
      · exact absurd hge (by rw [he]; omega)
      · exact ⟨rc, ht, by omega⟩

lemma incrAll_ok_of_inb (cells : List (Nat × Nat)) (g : Grid)
    (h : ∀ rc ∈ cells, rc.1 < g.length) :
    ∃ g', incrAll cells g = Except.ok g' := by
  induction cells generalizing g with
  | nil => exact ⟨g, rfl⟩
  | cons rc0 rest ih =>
    have h0 : rc0.1 < g.length := h rc0 (by simp)
    unfold incrAll
    rw [gridInc_ok g rc0.1 rc0.2 h0]
    apply ih
    intro rc hm
    have := h rc (by simp [hm])
    have hlen : (g.set rc0.1 (writeCell (g.get ⟨rc0.1, h0⟩) rc0.2)).length = g.length :=
      List.length_set _ _ _
    omega

lemma cellAt_incrAll (cells : List (Nat × Nat)) (g g' : Grid)
    (h : incrAll cells g = Except.ok g') (r c : Nat) :
    cellAt g' r c = (cellAt g r c).map (· + cells.count (r, c)) := by
  induction cells generalizing g with
  | nil =>
    unfold incrAll at h
    rw [Except.ok.injEq] at h
    subst h
    cases cellAt g r c <;> simp
  | cons rc0 rest ih =>
    unfold incrAll at h
    cases hstep : gridInc g rc0.1 rc0.2 with
    | error e => rw [hstep] at h; exact absurd h (by simp)
    | ok g1 =>
      rw [hstep] at h
      rw [ih g1 h]
      have hcell := (of_gridInc_ok g g1 rc0.1 rc0.2 hstep).2.1 r c
      rw [hcell]
      have hcount : (rc0 :: rest).count (r, c) =
          rest.count (r, c) + if rc0 = (r, c) then 1 else 0 := by
        rw [List.count_cons]
        congr 1
        by_cases he : rc0 = (r, c)
        · simp [he]
        · simp [he]
      rw [hcount]
      by_cases hrc : r = rc0.1 ∧ c = rc0.2
      · rw [if_pos hrc, if_pos (by obtain ⟨h1, h2⟩ := hrc; rw [h1, h2]),
          incJs_eq_map]
        cases cellAt g r c
        · simp
        · simp
          omega
      · rw [if_neg hrc, if_neg (by rintro rfl; exact hrc ⟨rfl, rfl⟩)]
        simp

lemma rowLen_incrAll_mono (cells : List (Nat × Nat)) (g g' : Grid)
    (h : incrAll cells g = Except.ok g') (r : Nat) : rowLen g r ≤ rowLen g' r := by
  induction cells generalizing g with
  | nil =>
    unfold incrAll at h
    rw [Except.ok.injEq] at h
    rw [h]
  | cons rc0 rest ih =>
    unfold incrAll at h
    cases hstep : gridInc g rc0.1 rc0.2 with
    | error e => rw [hstep] at h; exact absurd h (by simp)
    | ok g1 =>
      rw [hstep] at h
      have h1 := (of_gridInc_ok g g1 rc0.1 rc0.2 hstep).2.2 r
      have h2 := ih g1 h
      by_cases hr : r = rc0.1
      · rw [if_pos hr] at h1; omega
      · rw [if_neg hr] at h1; omega

lemma rowLen_incrAll_written (cells : List (Nat × Nat)) (g g' : Grid)
    (h : incrAll cells g = Except.ok g') (rc : Nat × Nat) (hm : rc ∈ cells) :
    rc.2 < rowLen g' rc.1 := by
  induction cells generalizing g with
  | nil => exact absurd hm (by simp)
  | cons rc0 rest ih =>
    unfold incrAll at h
    cases hstep : gridInc g rc0.1 rc0.2 with
    | error e => rw [hstep] at h; exact absurd h (by simp)
    | ok g1 =>
      rw [hstep] at h
      rcases List.mem_cons.mp hm with he | ht
      · subst he
        have h1 := (of_gridInc_ok g g1 rc.1 rc.2 hstep).2.2 rc.1
        rw [if_pos rfl] at h1
        have h2 := rowLen_incrAll_mono rest g1 g' h rc.1
        omega
      · exact ih g1 h ht

lemma rowLen_incrAll_preserved (cells : List (Nat × Nat)) (g g' : Grid)
    (h : incrAll cells g = Except.ok g') (r : Nat)
    (hr : ∀ rc ∈ cells, rc.1 = r → rc.2 < rowLen g r) :
    rowLen g' r = rowLen g r := by
  induction cells generalizing g with
  | nil =>
    unfold incrAll at h
    rw [Except.ok.injEq] at h
    rw [h]
  | cons rc0 rest ih =>
    unfold incrAll at h
    cases hstep : gridInc g rc0.1 rc0.2 with
    | error e => rw [hstep] at h; exact absurd h (by simp)
    | ok g1 =>
      rw [hstep] at h
      have h1 := (of_gridInc_ok g g1 rc0.1 rc0.2 hstep).2.2 r
      have hkeep : rowLen g1 r = rowLen g r := by
        by_cases hr0 : r = rc0.1
        · rw [if_pos hr0] at h1
          have := hr rc0 (by simp) hr0.symm
          omega
        · rwa [if_neg hr0] at h1
      rw [ih g1 h ?_, hkeep]
      intro rc hm hrc
      rw [hkeep]
      exact hr rc (by simp [hm]) hrc

end IncrAllLemmas

section ScanLemmas

lemma scanRow_ok (row : List Cell) (i j occ : Nat)
    (h : ∀ c ∈ row, cellGtOne c = false) :
    scanRow i j row occ = Except.ok (occ + row.countP cellNeZero) := by
  induction row generalizing j occ with
  | nil => simp [scanRow]
  | cons c rest ih =>
    unfold scanRow
    rw [if_neg (by rw [h c (by simp)]; simp)]
    rw [ih (j + 1) _ fun x hx => h x (by simp [hx])]
    rw [List.countP_cons, Except.ok.injEq]
    by_cases hc : cellNeZero c = true
    · simp only [hc, if_true]
      omega
    · simp only [hc, if_false]
      omega

lemma scanRow_err_shape (row : List Cell) (i j occ : Nat) (e : VErr)
    (h : scanRow i j row occ = Except.error e) : ∃ k, e = VErr.overlap k i := by
  induction row generalizing j occ with
  | nil => exact absurd h (by simp [scanRow])
  | cons c rest ih =>
    unfold scanRow at h
    split at h
    · rw [Except.error.injEq] at h
      exact ⟨j, h.symm⟩
    · exact ih (j + 1) _ h

lemma of_scanRow_err (row : List Cell) (i j occ k i' : Nat)
    (h : scanRow i j row occ = Except.error (VErr.overlap k i')) :
    i' = i ∧ ∃ t, t < row.length ∧ k = j + t ∧
      cellGtOne (row.getD t none) = true := by
  induction row generalizing j occ with
  | nil => exact absurd h (by simp [scanRow])
  | cons c rest ih =>
    unfold scanRow at h
    split at h
    case isTrue hc =>
      rw [Except.error.injEq, VErr.overlap.injEq] at h
      exact ⟨h.2.symm, 0, by simp, by omega, by simpa [h.1] using hc⟩
    case isFalse hc =>
      obtain ⟨hi, t, ht, hk, hg⟩ := ih (j + 1) _ h
      exact ⟨hi, t + 1, by simp; omega, by omega, by simpa using hg⟩

lemma scanRow_err_exists (row : List Cell) (i j occ : Nat)
    (h : ∃ c ∈ row, cellGtOne c = true) :
    ∃ k, scanRow i j row occ = Except.error (VErr.overlap k i) := by
  induction row generalizing j occ with
  | nil => obtain ⟨c, hm, _⟩ := h; exact absurd hm (by simp)
  | cons c rest ih =>
    unfold scanRow
    by_cases hc : cellGtOne c = true
    · exact ⟨j, by rw [if_pos hc]⟩
    · rw [if_neg hc]
      apply ih (j + 1)
      obtain ⟨x, hm, hx⟩ := h
      rcases List.mem_cons.mp hm with he | ht
      · exact absurd hx (by rw [he]; exact hc)
      · exact ⟨x, ht, hx⟩

lemma scanGrid_ok (N : Nat) (gs : List (List Cell)) (i occ : Nat)
    (hlen : ∀ row ∈ gs, row.length = N)
    (hclean : ∀ row ∈ gs, ∀ c ∈ row, cellGtOne c = false) :
    scanGrid N i gs occ =
      Except.ok (occ + (gs.map (fun row => row.countP cellNeZero)).sum) := by
  induction gs generalizing i occ with
  | nil => simp [scanGrid]
  | cons row rest ih =>
    unfold scanGrid
    rw [if_neg (by rw [hlen row (by simp)]; simp)]
    rw [scanRow_ok row i 0 occ (hclean row (by simp))]
    show scanGrid N (i + 1) rest (occ + List.countP cellNeZero row) = _
    rw [ih (i + 1) _ (fun r hr => hlen r (by simp [hr]))
      (fun r hr => hclean r (by simp [hr]))]
    simp
    omega

lemma scanGrid_overEdge (N : Nat) (gs : List (List Cell)) (i occ : Nat)
    (hclean : ∀ row ∈ gs, ∀ c ∈ row, cellGtOne c = false)
    (hbad : ∃ row ∈ gs, row.length ≠ N) :
    scanGrid N i gs occ = Except.error VErr.overEdge := by
  induction gs generalizing i occ with
  | nil => obtain ⟨row, hm, _⟩ := hbad; exact absurd hm (by simp)
  | cons row rest ih =>
    unfold scanGrid
    by_cases hr : row.length = N
    · rw [if_neg (by rw [hr]; simp)]
      rw [scanRow_ok row i 0 occ (hclean row (by simp))]
      show scanGrid N (i + 1) rest (occ + List.countP cellNeZero row) = _
      apply ih (i + 1)
      · exact fun r h2 => hclean r (by simp [h2])
      · obtain ⟨r, hm, hne⟩ := hbad
        rcases List.mem_cons.mp hm with he | ht
        · exact absurd hne (by rw [he]; simp [hr])
        · exact ⟨r, ht, hne⟩
    · rw [if_pos hr]

lemma scanGrid_overlap_exists (N : Nat) (gs : List (List Cell)) (i occ : Nat)
    (hlen : ∀ row ∈ gs, row.length = N)
    (hbad : ∃ row ∈ gs, ∃ c ∈ row, cellGtOne c = true) :
    ∃ k r, scanGrid N i gs occ = Except.error (VErr.overlap k r) := by
  induction gs generalizing i occ with
  | nil => obtain ⟨row, hm, _⟩ := hbad; exact absurd hm (by simp)
  | cons row rest ih =>
    unfold scanGrid
    rw [if_neg (by rw [hlen row (by simp)]; simp)]
    by_cases hrow : ∃ c ∈ row, cellGtOne c = true
    · obtain ⟨k, hk⟩ := scanRow_err_exists row i 0 occ hrow
      exact ⟨k, i, by rw [hk]⟩
    · push_neg at hrow
      have hrowf : ∀ c ∈ row, cellGtOne c = false := by
        intro c hc
        cases hcg : cellGtOne c with
        | false => rfl
        | true => exact absurd hcg (hrow c hc)
      rw [scanRow_ok row i 0 occ hrowf]
      show ∃ k r, scanGrid N (i + 1) rest (occ + List.countP cellNeZero row) = _
      apply ih (i + 1)
      · exact fun r h2 => hlen r (by simp [h2])
      · obtain ⟨r, hm, c, hc, hg⟩ := hbad
        rcases List.mem_cons.mp hm with he | ht
        · exact absurd hg (by rw [he] at hc; exact hrow c hc)
        · exact ⟨r, ht, c, hc, hg⟩

lemma of_scanGrid_overlap (N : Nat) (gs : List (List Cell)) (i occ k r : Nat)
    (h : scanGrid N i gs occ = Except.error (VErr.overlap k r)) :
    ∃ t, t < gs.length ∧ r = i + t ∧
      cellGtOne ((gs.getD t []).getD k none) = true := by
  induction gs generalizing i occ with
  | nil => exact absurd h (by simp [scanGrid])
  | cons row rest ih =>
    unfold scanGrid at h
    split at h
    · rw [Except.error.injEq] at h
      exact absurd h (by simp)
    · revert h
      cases hs : scanRow i 0 row occ with
      | error e =>
        intro h
        rw [Except.error.injEq] at h
        subst h
        obtain ⟨hi, t, ht, hk, hg⟩ := of_scanRow_err row i 0 occ k r hs
        have htk : t = k := by omega
        rw [htk] at hg
        exact ⟨0, by simp, by omega, by simpa using hg⟩
      | ok occ1 =>
        intro h
        obtain ⟨t, ht, hr, hg⟩ := ih (i + 1) occ1 h
        exact ⟨t + 1, by simp; omega, by omega, by simpa using hg⟩

end ScanLemmas

section CountingLemmas

lemma map_sum_eq_sum_getD {α : Type} (l : List α) (f : α → Nat) (d : α) :
    (l.map f).sum = ∑ r in Finset.range l.length, f (l.getD r d) := by
  induction l with
  | nil => simp
  | cons a t ih =>
    rw [List.map_cons, List.sum_cons, ih]
    rw [List.length_cons, Finset.sum_range_succ' (fun r => f ((a :: t).getD r d)) t.length]
    simp [List.getD_cons_succ, List.getD_cons_zero]
    omega

lemma countP_eq_sum_getD {α : Type} (l : List α) (p : α → Bool) (d : α) :
    l.countP p = ∑ c in Finset.range l.length, (if p (l.getD c d) then 1 else 0) := by
  induction l with
  | nil => simp
  | cons a t ih =>
    rw [List.countP_cons, ih]
    rw [List.length_cons, Finset.sum_range_succ'
      (fun c => if p ((a :: t).getD c d) then 1 else 0) t.length]
    simp [List.getD_cons_succ, List.getD_cons_zero]

lemma sum_indicator_pair (N : Nat) (p : Nat × Nat) (h1 : p.1 < N) (h2 : p.2 < N) :
    (∑ r in Finset.range N, ∑ c in Finset.range N,
      (if p = (r, c) then 1 else 0)) = 1 := by
  have inner : ∀ r, (∑ c in Finset.range N, (if p = (r, c) then 1 else 0)) =
      if r = p.1 then 1 else 0 := by
    intro r
    by_cases hr : r = p.1
    · rw [if_pos hr]
      have hco : ∀ c, (if p = (r, c) then (1 : Nat) else 0) = if c = p.2 then 1 else 0 := by
        intro c
        by_cases hc : c = p.2
        · rw [if_pos (by rw [Prod.ext_iff]; exact ⟨hr.symm, hc.symm⟩), if_pos hc]
        · rw [if_neg (by rw [Prod.ext_iff]; rintro ⟨-, h⟩; exact hc h.symm), if_neg hc]
      rw [Finset.sum_congr rfl fun c _ => hco c]
      rw [Finset.sum_ite_eq' (Finset.range N) p.2 (fun _ => 1)]
      rw [if_pos (Finset.mem_range.mpr h2)]
    · rw [if_neg hr]
      apply Finset.sum_eq_zero
      intro c _
      rw [if_neg (by rw [Prod.ext_iff]; rintro ⟨hh, -⟩; exact hr hh.symm)]
  rw [Finset.sum_congr rfl fun r _ => inner r]
  rw [Finset.sum_ite_eq' (Finset.range N) p.1 (fun _ => 1)]
  rw [if_pos (Finset.mem_range.mpr h1)]

lemma sum_sum_count_pairs (N : Nat) (L : List (Nat × Nat))
    (h : ∀ rc ∈ L, rc.1 < N ∧ rc.2 < N) :
    (∑ r in Finset.range N, ∑ c in Finset.range N, L.count (r, c)) = L.length := by
  induction L with
  | nil => simp
  | cons p t ih =>
    have hcount : ∀ r c : Nat, (p :: t).count (r, c) =
        t.count (r, c) + if p = (r, c) then 1 else 0 := by
      intro r c
      rw [List.count_cons]
      congr 1
      by_cases he : p = (r, c)
      · simp [he]
      · simp [he]
    have hsplit : (∑ r in Finset.range N, ∑ c in Finset.range N, (p :: t).count (r, c)) =
        (∑ r in Finset.range N, ∑ c in Finset.range N, t.count (r, c)) +
        (∑ r in Finset.range N, ∑ c in Finset.range N, (if p = (r, c) then 1 else 0)) := by
      rw [← Finset.sum_add_distrib]
      apply Finset.sum_congr rfl
      intro r _
      rw [← Finset.sum_add_distrib]
      exact Finset.sum_congr rfl fun c _ => hcount r c
    rw [hsplit, ih fun rc hm => h rc (by simp [hm]),
      sum_indicator_pair N p (h p (by simp)).1 (h p (by simp)).2]
    simp

lemma count_le_one_of_nodup {α : Type} [BEq α] [LawfulBEq α] (l : List α)
    (h : l.Nodup) (a : α) : l.count a ≤ 1 := by
  induction l with
  | nil => simp
  | cons b t ih =>
    obtain ⟨hb, ht⟩ := List.nodup_cons.mp h
    rw [List.count_cons]
    by_cases he : b = a
    · subst he
      have : t.count b = 0 := List.count_eq_zero.mpr hb
      simp [this]
    · rw [if_neg (by simpa using he)]
      have := ih ht
      omega

lemma count_le_one_of_nodup_disjoint (cB cD cS : List (Nat × Nat))
    (hnB : cB.Nodup) (hnD : cD.Nodup) (hnS : cS.Nodup)
    (hBD : cB.Disjoint cD) (hBS : cB.Disjoint cS) (hDS : cD.Disjoint cS)
    (a : Nat × Nat) : (cB ++ (cD ++ cS)).count a ≤ 1 := by
  rw [List.count_append, List.count_append]
  have h1 : cB.count a ≤ 1 := count_le_one_of_nodup cB hnB a
  have h2 : cD.count a ≤ 1 := count_le_one_of_nodup cD hnD a
  have h3 : cS.count a ≤ 1 := count_le_one_of_nodup cS hnS a
  by_cases hB : a ∈ cB
  · have : cD.count a = 0 := List.count_eq_zero.mpr fun hm => hBD hB hm
    have : cS.count a = 0 := List.count_eq_zero.mpr fun hm => hBS hB hm
    omega
  · have hB0 : cB.count a = 0 := List.count_eq_zero.mpr hB
    by_cases hD : a ∈ cD
    · have : cS.count a = 0 := List.count_eq_zero.mpr fun hm => hDS hD hm
      omega
    · have : cD.count a = 0 := List.count_eq_zero.mpr hD
      omega

lemma two_mem_of_count_ge_two (cB cD cS : List (Nat × Nat))
    (a : Nat × Nat) (hc : 2 ≤ (cB ++ (cD ++ cS)).count a)
    (hnB : cB.Nodup) (hnD : cD.Nodup) (hnS : cS.Nodup) :
    (a ∈ cB ∧ a ∈ cD) ∨ (a ∈ cB ∧ a ∈ cS) ∨ (a ∈ cD ∧ a ∈ cS) := by
  rw [List.count_append, List.count_append] at hc
  have h1 : cB.count a ≤ 1 := count_le_one_of_nodup cB hnB a
  have h2 : cD.count a ≤ 1 := count_le_one_of_nodup cD hnD a
  have h3 : cS.count a ≤ 1 := count_le_one_of_nodup cS hnS a
  by_cases hB : a ∈ cB
  · by_cases hD : a ∈ cD
    · exact Or.inl ⟨hB, hD⟩
    · have hD0 : cD.count a = 0 := List.count_eq_zero.mpr hD
      have hS : a ∈ cS := by
        by_contra hS
        have : cS.count a = 0 := List.count_eq_zero.mpr hS
        omega
      exact Or.inr (Or.inl ⟨hB, hS⟩)
  · have hB0 : cB.count a = 0 := List.count_eq_zero.mpr hB
    have hD : a ∈ cD := by
      by_contra hD
      have : cD.count a = 0 := List.count_eq_zero.mpr hD
      omega
    have hS : a ∈ cS := by
      by_contra hS
      have : cS.count a = 0 := List.count_eq_zero.mpr hS
      omega
    exact Or.inr (Or.inr ⟨hD, hS⟩)

end CountingLemmas

section SchemaShipLemmas

lemma okBind {α β : Type} (a : α) (f : α → Except VErr β) :
    Except.bind (Except.ok a) f = f a := rfl

lemma errBind {α β : Type} (e : VErr) (f : α → Except VErr β) :
    Except.bind (Except.error e : Except VErr α) f = Except.error e := rfl

lemma originItemViolations_nil (N : Nat) (t : ShipType) (l : List Int) (i : Nat)
    (h : ∀ x ∈ l, 0 ≤ x ∧ x ≤ (N : Int) - 1) :
    originItemViolations N t i l = [] := by
  induction l generalizing i with
  | nil => rfl
  | cons x rest ih =>
    unfold originItemViolations
    rw [if_neg (by have := h x (by simp); omega)]
    rw [List.nil_append]
    exact ih (i + 1) fun z hz => h z (by simp [hz])

lemma shipSchemaViolations_nil (N : Nat) (t : ShipType) (d : ShipData)
    (x y : Nat) (ho : d.origin = [(x : Int), (y : Int)])
    (hx : x < N) (hy : y < N) : shipSchemaViolations N t d = [] := by
  unfold shipSchemaViolations
  rw [ho]
  rw [if_neg (by simp)]
  rw [List.nil_append]
  apply originItemViolations_nil
  intro z hz
  rcases List.mem_cons.mp hz with he | hz2
  · constructor
    · rw [he]; exact Int.natCast_nonneg x
    · rw [he]; omega
  · rcases List.mem_cons.mp hz2 with he | hz3
    · constructor
      · rw [he]; exact Int.natCast_nonneg y
      · rw [he]; omega
    · exact absurd hz3 (by simp)

lemma shipsLockedSchemaViolations_nil (N : Nat) (p : PlacementPayload)
    (bS dS sS : ShipData)
    (hpb : p.battleship = some bS) (hpd : p.destroyer = some dS)
    (hps : p.submarine = some sS) (hu : p.unknownKeys = [])
    (hb : shipSchemaViolations N ShipType.battleship bS = [])
    (hd : shipSchemaViolations N ShipType.destroyer dS = [])
    (hs : shipSchemaViolations N ShipType.submarine sS = []) :
    shipsLockedSchemaViolations N p = [] := by
  unfold shipsLockedSchemaViolations
  rw [hpb, hpd, hps, hu]
  simp [hb, hd, hs]

lemma shipCells_horizontal (size : Nat) (ship : ShipData) (x y : Nat)
    (ho : ship.origin = [(x : Int), (y : Int)])
    (hor : ship.orientation = "horizontal") :
    shipCells size ship = (List.range size).map (fun i => (y, x + i)) := by
  unfold shipCells
  rw [ho, hor]
  simp

lemma shipCells_else (size : Nat) (ship : ShipData) (x y : Nat)
    (ho : ship.origin = [(x : Int), (y : Int)])
    (hver : ship.orientation ≠ "horizontal") :
    shipCells size ship = (List.range size).map (fun i => (y + i, x)) := by
  unfold shipCells
  rw [ho]
  have hb : (ship.orientation == "horizontal") = false := by
    simp [hver]
  rw [hb]
  simp

lemma shipWithin_origin_lt (N size x y : Nat) (o : String)
    (hw : shipWithin N size x y o) (hsize : 1 ≤ size) : x < N ∧ y < N := by
  rcases hw with ⟨-, h1, h2⟩ | ⟨-, h1, h2⟩ <;> omega

/-- Geometry facts shared by the main validation theorems: cell bounds, no
duplicate squares within one ship, and the square count. -/
lemma shipCells_facts (N size : Nat) (ship : ShipData) (x y : Nat)
    (ho : ship.origin = [(x : Int), (y : Int)])
    (hw : shipWithin N size x y ship.orientation) :
    (∀ rc ∈ shipCells size ship, rc.1 < N ∧ rc.2 < N) ∧
    (shipCells size ship).Nodup ∧ (shipCells size ship).length = size := by
  rcases hw with ⟨hor, h1, h2⟩ | ⟨hver, h1, h2⟩
  · rw [shipCells_horizontal size ship x y ho hor]
    refine ⟨?_, ?_, by simp⟩
    · intro rc hm
      obtain ⟨i, hi, he⟩ := List.mem_map.mp hm
      rw [← he]
      have := List.mem_range.mp hi
      constructor
      · exact h2
      · show x + i < N
        omega
    · apply List.Nodup.map ?_ (List.nodup_range size)
      intro a b hab
      have : x + a = x + b := congrArg Prod.snd hab
      omega
  · rw [shipCells_else size ship x y ho (by rw [hver]; decide)]
    refine ⟨?_, ?_, by simp⟩
    · intro rc hm
      obtain ⟨i, hi, he⟩ := List.mem_map.mp hm
      rw [← he]
      have := List.mem_range.mp hi
      constructor
      · show y + i < N
        omega
      · exact h2
    · apply List.Nodup.map ?_ (List.nodup_range size)
      intro a b hab
      have : y + a = y + b := congrArg Prod.fst hab
      omega

lemma length_emptyGrid (N : Nat) : (generateEmptyGridArray N).length = N := by
  simp [generateEmptyGridArray]

lemma rowLen_emptyGrid (N r : Nat) :
    rowLen (generateEmptyGridArray N) r = if r < N then N else 0 := by
  unfold rowLen generateEmptyGridArray
  rw [getD_replicate]
  split
  · simp
  · simp

lemma cellAt_emptyGrid (N r c : Nat) :
    cellAt (generateEmptyGridArray N) r c =
      if r < N ∧ c < N then some 0 else none := by
  unfold cellAt generateEmptyGridArray
  rw [getD_replicate]
  by_cases hr : r < N
  · rw [if_pos hr, getD_replicate]
    by_cases hc : c < N
    · rw [if_pos hc, if_pos ⟨hr, hc⟩]
    · rw [if_neg hc, if_neg (by tauto)]
  · rw [if_neg hr, if_neg (by tauto)]
    rfl

lemma grid_facts_of_incrAll (N : Nat) (cells : List (Nat × Nat)) (g3 : Grid)
    (hall : incrAll cells (generateEmptyGridArray N) = Except.ok g3) :
    g3.length = N ∧
    (∀ r c, cellAt g3 r c =
      if r < N ∧ c < N then some (cells.count (r, c)) else none) ∧
    (∀ r, r < N → (∀ rc ∈ cells, rc.1 = r → rc.2 < N) → rowLen g3 r = N) := by
  refine ⟨?_, ?_, ?_⟩
  · rw [incrAll_length cells _ g3 hall, length_emptyGrid]
  · intro r c
    rw [cellAt_incrAll cells _ g3 hall r c, cellAt_emptyGrid]
    by_cases h : r < N ∧ c < N
    · rw [if_pos h, if_pos h]
      simp
    · rw [if_neg h, if_neg h]
      rfl
  · intro r hr hcols
    have hpres := rowLen_incrAll_preserved cells _ g3 hall r ?_
    · rw [hpres, rowLen_emptyGrid, if_pos hr]
    · intro rc hm hrc
      rw [rowLen_emptyGrid, if_pos hr]
      exact hcols rc hm hrc

/-- Once the schema passes, `validateShipPlacement` is the population of the three
ships followed by the consistency and occupancy passes. -/
lemma validate_unfold_geom (N : Nat) (p : PlacementPayload) (bS dS sS : ShipData)
    (hpb : p.battleship = some bS) (hpd : p.destroyer = some dS)
    (hps : p.submarine = some sS)
    (hschema : shipsLockedSchemaViolations N p = []) :
    validateShipPlacement N p =
      Except.bind (incrAll (shipCells 4 bS) (generateEmptyGridArray N)) (fun g1 =>
      Except.bind (incrAll (shipCells 3 dS) g1) (fun g2 =>
      Except.bind (incrAll (shipCells 2 sS) g2) (fun g3 =>
      Except.bind (scanGrid N 0 g3 0) (fun occ =>
      if occ ≠ EXPECTED_OCCUPIED_SQUARES then Except.error (VErr.occupancy occ)
      else Except.ok p)))) := by
  unfold validateShipPlacement
  simp only [hschema, hpb, hpd, hps, Option.getD_some, populateGridWithShipData,
    shipLength, EXPECTED_OCCUPIED_SQUARES]
  rfl

/-- The numeric value of the occupancy indicator at a cell holding `some k`,
`k ≤ 1`. -/
lemma indicator_cell (k : Nat) (h : k ≤ 1) :
    (if cellNeZero (some k) = true then 1 else 0) = k := by
  unfold cellNeZero
  match k, h with
  | 0, _ => simp
  | 1, _ => simp

end SchemaShipLemmas

section MainValidationLemmas

lemma rowLen_eq_of_mem (g3 : Grid) (row : List Cell) (t : Nat)
    (ht : t < g3.length) (hteq : g3[t] = row) : rowLen g3 t = row.length := by
  unfold rowLen
  rw [List.getD_eq_getElem g3 [] ht, hteq]

lemma cellAt_eq_of_mem (g3 : Grid) (row : List Cell) (cfoo : Cell) (t u : Nat)
    (ht : t < g3.length) (hteq : g3[t] = row)
    (hu : u < row.length) (hueq : row[u] = cfoo) : cellAt g3 t u = cfoo := by
  unfold cellAt
  rw [List.getD_eq_getElem g3 [] ht, hteq, List.getD_eq_getElem row none hu, hueq]

/-- Rows of a populated grid whose cell values never exceed one carry no
overlap-triggering cell. -/
lemma clean_rows_of_count_le_one (N : Nat) (cells : List (Nat × Nat)) (g3 : Grid)
    (hg3l : g3.length = N)
    (hcell : ∀ r c, cellAt g3 r c =
      if r < N ∧ c < N then some (cells.count (r, c)) else none)
    (hle1 : ∀ a, cells.count a ≤ 1) :
    ∀ row ∈ g3, ∀ cfoo ∈ row, cellGtOne cfoo = false := by
  intro row hm cfoo hcm
  obtain ⟨t, ht, hteq⟩ := List.mem_iff_getElem.mp hm
  obtain ⟨u, hu, hueq⟩ := List.mem_iff_getElem.mp hcm
  have hc1 : cellAt g3 t u = cfoo := cellAt_eq_of_mem g3 row cfoo t u ht hteq hu hueq
  have htN : t < N := by omega
  by_cases huN : u < N
  · rw [hcell t u, if_pos ⟨htN, huN⟩] at hc1
    rw [← hc1]
    unfold cellGtOne
    have := hle1 (t, u)
    simp
    omega
  · rw [hcell t u, if_neg (by tauto)] at hc1
    rw [← hc1]
    rfl

/-- C3: a payload holding exactly the three required ship entries (no unknown keys),
each with an in-bounds origin and a valid orientation, every ship lying fully inside
the N-by-N board, and no two ships sharing a square, passes `validateShipPlacement`
with no error, and the returned value is the original payload itself. -/
theorem validateShipPlacement_ok_of_valid
    (N : Nat) (p : PlacementPayload) (bS dS sS : ShipData)
    (xB yB xD yD xS yS : Nat)
    (hpb : p.battleship = some bS) (hpd : p.destroyer = some dS)
    (hps : p.submarine = some sS) (hu : p.unknownKeys = [])
    (hob : bS.origin = [(xB : Int), (yB : Int)])
    (hod : dS.origin = [(xD : Int), (yD : Int)])
    (hos : sS.origin = [(xS : Int), (yS : Int)])
    (hwb : shipWithin N 4 xB yB bS.orientation)
    (hwd : shipWithin N 3 xD yD dS.orientation)
    (hws : shipWithin N 2 xS yS sS.orientation)
    (hBD : ∀ a ∈ shipCells 4 bS, a ∉ shipCells 3 dS)
    (hBS : ∀ a ∈ shipCells 4 bS, a ∉ shipCells 2 sS)
    (hDS : ∀ a ∈ shipCells 3 dS, a ∉ shipCells 2 sS) :
    validateShipPlacement N p = Except.ok p := by
  obtain ⟨hxB, hyB⟩ := shipWithin_origin_lt N 4 xB yB _ hwb (by omega)
  obtain ⟨hxD, hyD⟩ := shipWithin_origin_lt N 3 xD yD _ hwd (by omega)
  obtain ⟨hxS, hyS⟩ := shipWithin_origin_lt N 2 xS yS _ hws (by omega)
  have hschema := shipsLockedSchemaViolations_nil N p bS dS sS hpb hpd hps hu
    (shipSchemaViolations_nil N _ bS xB yB hob hxB hyB)
    (shipSchemaViolations_nil N _ dS xD yD hod hxD hyD)
    (shipSchemaViolations_nil N _ sS xS yS hos hxS hyS)
  obtain ⟨hBb, hBn, hBl⟩ := shipCells_facts N 4 bS xB yB hob hwb
  obtain ⟨hDb, hDn, hDl⟩ := shipCells_facts N 3 dS xD yD hod hwd
  obtain ⟨hSb, hSn, hSl⟩ := shipCells_facts N 2 sS xS yS hos hws
  have hg0l : (generateEmptyGridArray N).length = N := length_emptyGrid N
  obtain ⟨g1, hb1⟩ := incrAll_ok_of_inb (shipCells 4 bS) (generateEmptyGridArray N)
    (fun rc hm => by rw [hg0l]; exact (hBb rc hm).1)
  have hg1l : g1.length = N := by rw [incrAll_length _ _ _ hb1, hg0l]
  obtain ⟨g2, hd1⟩ := incrAll_ok_of_inb (shipCells 3 dS) g1
    (fun rc hm => by rw [hg1l]; exact (hDb rc hm).1)
  have hg2l : g2.length = N := by rw [incrAll_length _ _ _ hd1, hg1l]
  obtain ⟨g3, hs1⟩ := incrAll_ok_of_inb (shipCells 2 sS) g2
    (fun rc hm => by rw [hg2l]; exact (hSb rc hm).1)
  have hall : incrAll (shipCells 4 bS ++ (shipCells 3 dS ++ shipCells 2 sS))
      (generateEmptyGridArray N) = Except.ok g3 := by
    rw [incrAll_append, hb1, okBind, incrAll_append, hd1, okBind, hs1]
  have hACb : ∀ rc ∈ shipCells 4 bS ++ (shipCells 3 dS ++ shipCells 2 sS),
      rc.1 < N ∧ rc.2 < N := by
    intro rc hm
    rcases List.mem_append.mp hm with h | h
    · exact hBb rc h
    · rcases List.mem_append.mp h with h2 | h2
      · exact hDb rc h2
      · exact hSb rc h2
  obtain ⟨hg3l, hcell, hrow⟩ := grid_facts_of_incrAll N _ g3 hall
  have hle1 : ∀ a, (shipCells 4 bS ++ (shipCells 3 dS ++ shipCells 2 sS)).count a ≤ 1 :=
    fun a => count_le_one_of_nodup_disjoint _ _ _ hBn hDn hSn hBD hBS hDS a
  have hrowN : ∀ r, r < N → rowLen g3 r = N :=
    fun r hr => hrow r hr (fun rc hm _ => (hACb rc hm).2)
  have hlenrows : ∀ row ∈ g3, row.length = N := by
    intro row hm
    obtain ⟨t, ht, hteq⟩ := List.mem_iff_getElem.mp hm
    rw [← rowLen_eq_of_mem g3 row t ht hteq]
    exact hrowN t (by omega)
  have hcellrows := clean_rows_of_count_le_one N _ g3 hg3l hcell hle1
  have hscan := scanGrid_ok N g3 0 0 hlenrows hcellrows
  have hsum : (g3.map (fun row => row.countP cellNeZero)).sum =
      (shipCells 4 bS ++ (shipCells 3 dS ++ shipCells 2 sS)).length := by
    rw [map_sum_eq_sum_getD g3 _ [], hg3l]
    have hrowsum : ∀ r ∈ Finset.range N, (g3.getD r []).countP cellNeZero =
        ∑ c in Finset.range N,
          (shipCells 4 bS ++ (shipCells 3 dS ++ shipCells 2 sS)).count (r, c) := by
      intro r hr
      have hrN := Finset.mem_range.mp hr
      rw [countP_eq_sum_getD (g3.getD r []) cellNeZero none]
      have hlen : (g3.getD r []).length = N := hrowN r hrN
      rw [hlen]
      apply Finset.sum_congr rfl
      intro c hc
      have hcN := Finset.mem_range.mp hc
      have hAt : (g3.getD r []).getD c none = cellAt g3 r c := rfl
      rw [hAt, hcell r c, if_pos (And.intro hrN hcN)]
      exact indicator_cell _ (hle1 (r, c))
    rw [Finset.sum_congr rfl hrowsum]
    exact sum_sum_count_pairs N _ hACb
  have hlen9 : (shipCells 4 bS ++ (shipCells 3 dS ++ shipCells 2 sS)).length = 9 := by
    rw [List.length_append, List.length_append, hBl, hDl, hSl]
  rw [validate_unfold_geom N p bS dS sS hpb hpd hps hschema]
  rw [hb1, okBind, hd1, okBind, hs1, okBind, hscan, okBind]
  rw [hsum, hlen9]
  simp [EXPECTED_OCCUPIED_SQUARES, shipLength]

/-- C3 witness: the concrete valid payload on a 5-wide board is returned
unchanged. -/
theorem validateShipPlacement_ok_witness :
    validateShipPlacement 5 validPayload5 = Except.ok validPayload5 := by
  apply validateShipPlacement_ok_of_valid 5 validPayload5
    ⟨[0, 0], "vertical"⟩ ⟨[2, 0], "horizontal"⟩ ⟨[2, 2], "horizontal"⟩
    0 0 2 0 2 2 rfl rfl rfl rfl (by decide) (by decide) (by decide)
    (by decide) (by decide) (by decide) (by decide) (by decide) (by decide)

/-- C4 (amended): a payload that passes the schema, whose ships all lie fully
within the board, and in which two ships occupy a common square, makes
`validateShipPlacement` fail with an overlap error, and the coordinate the error
names is itself a square shared by two of the ships. -/
theorem validateShipPlacement_overlap_of_shared
    (N : Nat) (p : PlacementPayload) (bS dS sS : ShipData)
    (xB yB xD yD xS yS : Nat)
    (hpb : p.battleship = some bS) (hpd : p.destroyer = some dS)
    (hps : p.submarine = some sS) (hu : p.unknownKeys = [])
    (hob : bS.origin = [(xB : Int), (yB : Int)])
    (hod : dS.origin = [(xD : Int), (yD : Int)])
    (hos : sS.origin = [(xS : Int), (yS : Int)])
    (hwb : shipWithin N 4 xB yB bS.orientation)
    (hwd : shipWithin N 3 xD yD dS.orientation)
    (hws : shipWithin N 2 xS yS sS.orientation)
    (hshared : ∃ a : Nat × Nat,
      (a ∈ shipCells 4 bS ∧ a ∈ shipCells 3 dS) ∨
      (a ∈ shipCells 4 bS ∧ a ∈ shipCells 2 sS) ∨
      (a ∈ shipCells 3 dS ∧ a ∈ shipCells 2 sS)) :
    ∃ colk rowk : Nat,
      validateShipPlacement N p = Except.error (VErr.overlap colk rowk) ∧
      (((rowk, colk) ∈ shipCells 4 bS ∧ (rowk, colk) ∈ shipCells 3 dS) ∨
       ((rowk, colk) ∈ shipCells 4 bS ∧ (rowk, colk) ∈ shipCells 2 sS) ∨
       ((rowk, colk) ∈ shipCells 3 dS ∧ (rowk, colk) ∈ shipCells 2 sS)) := by
  obtain ⟨hxB, hyB⟩ := shipWithin_origin_lt N 4 xB yB _ hwb (by omega)
  obtain ⟨hxD, hyD⟩ := shipWithin_origin_lt N 3 xD yD _ hwd (by omega)
  obtain ⟨hxS, hyS⟩ := shipWithin_origin_lt N 2 xS yS _ hws (by omega)
  have hschema := shipsLockedSchemaViolations_nil N p bS dS sS hpb hpd hps hu
    (shipSchemaViolations_nil N _ bS xB yB hob hxB hyB)
    (shipSchemaViolations_nil N _ dS xD yD hod hxD hyD)
    (shipSchemaViolations_nil N _ sS xS yS hos hxS hyS)
  obtain ⟨hBb, hBn, hBl⟩ := shipCells_facts N 4 bS xB yB hob hwb
  obtain ⟨hDb, hDn, hDl⟩ := shipCells_facts N 3 dS xD yD hod hwd
  obtain ⟨hSb, hSn, hSl⟩ := shipCells_facts N 2 sS xS yS hos hws
  have hg0l : (generateEmptyGridArray N).length = N := length_emptyGrid N
  obtain ⟨g1, hb1⟩ := incrAll_ok_of_inb (shipCells 4 bS) (generateEmptyGridArray N)
    (fun rc hm => by rw [hg0l]; exact (hBb rc hm).1)
  have hg1l : g1.length = N := by rw [incrAll_length _ _ _ hb1, hg0l]
  obtain ⟨g2, hd1⟩ := incrAll_ok_of_inb (shipCells 3 dS) g1
    (fun rc hm => by rw [hg1l]; exact (hDb rc hm).1)
  have hg2l : g2.length = N := by rw [incrAll_length _ _ _ hd1, hg1l]
  obtain ⟨g3, hs1⟩ := incrAll_ok_of_inb (shipCells 2 sS) g2
    (fun rc hm => by rw [hg2l]; exact (hSb rc hm).1)
  have hall : incrAll (shipCells 4 bS ++ (shipCells 3 dS ++ shipCells 2 sS))
      (generateEmptyGridArray N) = Except.ok g3 := by
    rw [incrAll_append, hb1, okBind, incrAll_append, hd1, okBind, hs1]
  have hACb : ∀ rc ∈ shipCells 4 bS ++ (shipCells 3 dS ++ shipCells 2 sS),
      rc.1 < N ∧ rc.2 < N := by
    intro rc hm
    rcases List.mem_append.mp hm with h | h
    · exact hBb rc h
    · rcases List.mem_append.mp h with h2 | h2
      · exact hDb rc h2
      · exact hSb rc h2
  obtain ⟨hg3l, hcell, hrow⟩ := grid_facts_of_incrAll N _ g3 hall
  have hrowN : ∀ r, r < N → rowLen g3 r = N :=
    fun r hr => hrow r hr (fun rc hm _ => (hACb rc hm).2)
  have hlenrows : ∀ row ∈ g3, row.length = N := by
    intro row hm
    obtain ⟨t, ht, hteq⟩ := List.mem_iff_getElem.mp hm
    rw [← rowLen_eq_of_mem g3 row t ht hteq]
    exact hrowN t (by omega)
  -- the shared square makes some in-bounds cell exceed 1
  obtain ⟨⟨a1, a2⟩, hsh⟩ := hshared
  have haB : a1 < N ∧ a2 < N := by
    rcases hsh with ⟨h1, -⟩ | ⟨h1, -⟩ | ⟨h1, -⟩
    · exact hBb (a1, a2) h1
    · exact hBb (a1, a2) h1
    · exact hDb (a1, a2) h1
  have hcount2 :
      2 ≤ (shipCells 4 bS ++ (shipCells 3 dS ++ shipCells 2 sS)).count (a1, a2) := by
    rw [List.count_append, List.count_append]
    rcases hsh with ⟨h1, h2⟩ | ⟨h1, h2⟩ | ⟨h1, h2⟩
    · have c1 := List.count_pos_iff.mpr h1
      have c2 := List.count_pos_iff.mpr h2
      omega
    · have c1 := List.count_pos_iff.mpr h1
      have c2 := List.count_pos_iff.mpr h2
      omega
    · have c1 := List.count_pos_iff.mpr h1
      have c2 := List.count_pos_iff.mpr h2
      omega
  have hbad : ∃ row ∈ g3, ∃ cfoo ∈ row, cellGtOne cfoo = true := by
    refine ⟨g3.getD a1 [], ?_, g3.getD a1 [] |>.getD a2 none, ?_, ?_⟩
    · rw [List.getD_eq_getElem g3 [] (by omega)]
      exact List.getElem_mem _
    · have hlr : (g3.getD a1 []).length = N := hrowN a1 haB.1
      rw [List.getD_eq_getElem (g3.getD a1 []) none (by rw [hlr]; exact haB.2)]
      exact List.getElem_mem _
    · have hAt : (g3.getD a1 []).getD a2 none = cellAt g3 a1 a2 := rfl
      rw [hAt, hcell a1 a2, if_pos (And.intro haB.1 haB.2)]
      unfold cellGtOne
      simp only [decide_eq_true_eq]
      omega
  obtain ⟨k, r, hserr⟩ := scanGrid_overlap_exists N g3 0 0 hlenrows hbad
  obtain ⟨t, htl, hrt, hgt⟩ := of_scanGrid_overlap N g3 0 0 k r hserr
  have htN : t < N := by omega
  have hrts : r = t := by omega
  have hAt2 : (g3.getD t []).getD k none = cellAt g3 t k := rfl
  rw [hAt2] at hgt
  have hkN : k < N := by
    by_contra hk
    rw [hcell t k, if_neg (by tauto)] at hgt
    exact absurd hgt (by decide)
  rw [hcell t k, if_pos (And.intro htN hkN)] at hgt
  have hcnt : 2 ≤ (shipCells 4 bS ++ (shipCells 3 dS ++ shipCells 2 sS)).count (t, k) := by
    revert hgt
    unfold cellGtOne
    simp only [decide_eq_true_eq]
    omega
  have hmem := two_mem_of_count_ge_two (shipCells 4 bS) (shipCells 3 dS)
    (shipCells 2 sS) (t, k) hcnt hBn hDn hSn
  refine ⟨k, r, ?_, by rw [hrts]; exact hmem⟩
  rw [validate_unfold_geom N p bS dS sS hpb hpd hps hschema]
  rw [hb1, okBind, hd1, okBind, hs1, okBind, hserr, errBind]

/-- C4 amended witness: on a 5-wide board, Battleship and Destroyer both covering
(0,0) produce an overlap error naming a square shared by two ships. -/
theorem validateShipPlacement_overlap_witness :
    ∃ colk rowk : Nat,
      validateShipPlacement 5 overlapPayload5 = Except.error (VErr.overlap colk rowk) ∧
      (((rowk, colk) ∈ shipCells 4 ⟨[0, 0], "vertical"⟩ ∧
          (rowk, colk) ∈ shipCells 3 ⟨[0, 0], "horizontal"⟩) ∨
       ((rowk, colk) ∈ shipCells 4 ⟨[0, 0], "vertical"⟩ ∧
          (rowk, colk) ∈ shipCells 2 ⟨[2, 2], "horizontal"⟩) ∨
       ((rowk, colk) ∈ shipCells 3 ⟨[0, 0], "horizontal"⟩ ∧
          (rowk, colk) ∈ shipCells 2 ⟨[2, 2], "horizontal"⟩)) := by
  apply validateShipPlacement_overlap_of_shared 5 overlapPayload5
    ⟨[0, 0], "vertical"⟩ ⟨[0, 0], "horizontal"⟩ ⟨[2, 2], "horizontal"⟩
    0 0 0 0 2 2 rfl rfl rfl rfl (by decide) (by decide) (by decide)
    (by decide) (by decide) (by decide)
  exact ⟨(0, 0), Or.inl ⟨by decide, by decide⟩⟩

lemma shipCells_nodup_any (size : Nat) (ship : ShipData) (x y : Nat)
    (ho : ship.origin = [(x : Int), (y : Int)]) : (shipCells size ship).Nodup := by
  by_cases hor : ship.orientation = "horizontal"
  · rw [shipCells_horizontal size ship x y ho hor]
    apply List.Nodup.map ?_ (List.nodup_range size)
    intro a b hab
    have : x + a = x + b := congrArg Prod.snd hab
    omega
  · rw [shipCells_else size ship x y ho hor]
    apply List.Nodup.map ?_ (List.nodup_range size)
    intro a b hab
    have : y + a = y + b := congrArg Prod.fst hab
    omega

lemma incrAll_ship_ok (N size : Nat) (ship : ShipData) (x y : Nat)
    (ho : ship.origin = [(x : Int), (y : Int)]) (hy : y < N)
    (hnover : ship.orientation ≠ "horizontal" → y + size ≤ N)
    (g : Grid) (hgl : g.length = N) :
    ∃ g', incrAll (shipCells size ship) g = Except.ok g' := by
  apply incrAll_ok_of_inb
  intro rc hm
  rw [hgl]
  by_cases hor : ship.orientation = "horizontal"
  · rw [shipCells_horizontal size ship x y ho hor] at hm
    obtain ⟨i, hi, he⟩ := List.mem_map.mp hm
    rw [← he]
    exact hy
  · rw [shipCells_else size ship x y ho hor] at hm
    obtain ⟨i, hi, he⟩ := List.mem_map.mp hm
    rw [← he]
    have h1 := List.mem_range.mp hi
    have h2 := hnover hor
    show y + i < N
    omega

lemma incrAll_ship_err (N size : Nat) (ship : ShipData) (x y : Nat)
    (ho : ship.origin = [(x : Int), (y : Int)])
    (hver : ship.orientation ≠ "horizontal") (hover : N < y + size) (hsz : 1 ≤ size)
    (g : Grid) (hgl : g.length = N) :
    incrAll (shipCells size ship) g = Except.error VErr.typeErr := by
  apply incrAll_err_of_oob
  refine ⟨(y + (size - 1), x), ?_, ?_⟩
  · rw [shipCells_else size ship x y ho hver]
    exact List.mem_map.mpr ⟨size - 1, List.mem_range.mpr (by omega), rfl⟩
  · show g.length ≤ (y + (size - 1), x).1
    rw [hgl]
    show N ≤ y + (size - 1)
    omega

lemma bad_row_of_horizontal_over (N : Nat) (cells : List (Nat × Nat)) (g3 : Grid)
    (hall : incrAll cells (generateEmptyGridArray N) = Except.ok g3)
    (x y size : Nat) (hy : y < N) (hover : N < x + size) (hsz : 1 ≤ size)
    (hmem : (y, x + (size - 1)) ∈ cells) :
    ∃ row ∈ g3, row.length ≠ N := by
  have hg3l : g3.length = N := by
    rw [incrAll_length cells _ g3 hall, length_emptyGrid]
  have hwrit := rowLen_incrAll_written cells _ g3 hall (y, x + (size - 1)) hmem
  have hwrit2 : x + (size - 1) < rowLen g3 y := hwrit
  refine ⟨g3.getD y [], ?_, ?_⟩
  · rw [List.getD_eq_getElem g3 [] (by omega)]
    exact List.getElem_mem _
  · show (g3.getD y []).length ≠ N
    have hre : rowLen g3 y = (g3.getD y []).length := rfl
    omega

/-- C1 (amended): for a payload that passes the schema (all three ships present,
origins within `[0, N-1]`, orientations among the two allowed strings): a ship
oriented vertically that extends past row `N-1` makes `validateShipPlacement` fail
with the JavaScript `TypeError` (indexing a grid row that does not exist), while a
ship oriented horizontally that extends past column `N-1` makes it fail with the
out-of-bounds over-the-edge error, provided no ship overflows vertically and no two
ships share a square. -/
theorem validate_out_of_bounds_amended
    (N : Nat) (p : PlacementPayload) (bS dS sS : ShipData)
    (xB yB xD yD xS yS : Nat)
    (hpb : p.battleship = some bS) (hpd : p.destroyer = some dS)
    (hps : p.submarine = some sS) (hu : p.unknownKeys = [])
    (hob : bS.origin = [(xB : Int), (yB : Int)])
    (hod : dS.origin = [(xD : Int), (yD : Int)])
    (hos : sS.origin = [(xS : Int), (yS : Int)])
    (horB : bS.orientation = "horizontal" ∨ bS.orientation = "vertical")
    (horD : dS.orientation = "horizontal" ∨ dS.orientation = "vertical")
    (horS : sS.orientation = "horizontal" ∨ sS.orientation = "vertical")
    (hxB : xB < N) (hyB : yB < N) (hxD : xD < N) (hyD : yD < N)
    (hxS : xS < N) (hyS : yS < N) :
    (((bS.orientation = "vertical" ∧ N < yB + 4) ∨
      (dS.orientation = "vertical" ∧ N < yD + 3) ∨
      (sS.orientation = "vertical" ∧ N < yS + 2)) →
      validateShipPlacement N p = Except.error VErr.typeErr) ∧
    (¬(bS.orientation = "vertical" ∧ N < yB + 4) →
     ¬(dS.orientation = "vertical" ∧ N < yD + 3) →
     ¬(sS.orientation = "vertical" ∧ N < yS + 2) →
     (∀ a ∈ shipCells 4 bS, a ∉ shipCells 3 dS) →
     (∀ a ∈ shipCells 4 bS, a ∉ shipCells 2 sS) →
     (∀ a ∈ shipCells 3 dS, a ∉ shipCells 2 sS) →
     ((bS.orientation = "horizontal" ∧ N < xB + 4) ∨
      (dS.orientation = "horizontal" ∧ N < xD + 3) ∨
      (sS.orientation = "horizontal" ∧ N < xS + 2)) →
      validateShipPlacement N p = Except.error VErr.overEdge) := by
  have hschema := shipsLockedSchemaViolations_nil N p bS dS sS hpb hpd hps hu
    (shipSchemaViolations_nil N _ bS xB yB hob hxB hyB)
    (shipSchemaViolations_nil N _ dS xD yD hod hxD hyD)
    (shipSchemaViolations_nil N _ sS xS yS hos hxS hyS)
  have hg0l : (generateEmptyGridArray N).length = N := length_emptyGrid N
  constructor
  · intro hover
    rw [validate_unfold_geom N p bS dS sS hpb hpd hps hschema]
    by_cases hBover : bS.orientation = "vertical" ∧ N < yB + 4
    · rw [incrAll_ship_err N 4 bS xB yB hob (by rw [hBover.1]; decide)
        hBover.2 (by omega) _ hg0l, errBind]
    · obtain ⟨g1, hb1⟩ := incrAll_ship_ok N 4 bS xB yB hob hyB
        (fun h => by
          rcases horB with h2 | h2
          · exact absurd h2 h
          · have h3 : ¬N < yB + 4 := fun hlt => hBover ⟨h2, hlt⟩
            omega) _ hg0l
      have hg1l : g1.length = N := by rw [incrAll_length _ _ _ hb1, hg0l]
      rcases hover with hB | hD | hS
      · exact absurd hB hBover
      · rw [hb1, okBind, incrAll_ship_err N 3 dS xD yD hod (by rw [hD.1]; decide)
          hD.2 (by omega) g1 hg1l, errBind]
      · by_cases hDover : dS.orientation = "vertical" ∧ N < yD + 3
        · rw [hb1, okBind, incrAll_ship_err N 3 dS xD yD hod
            (by rw [hDover.1]; decide) hDover.2 (by omega) g1 hg1l, errBind]
        · obtain ⟨g2, hd1⟩ := incrAll_ship_ok N 3 dS xD yD hod hyD
            (fun h => by
              rcases horD with h2 | h2
              · exact absurd h2 h
              · have h3 : ¬N < yD + 3 := fun hlt => hDover ⟨h2, hlt⟩
                omega) g1 hg1l
          have hg2l : g2.length = N := by rw [incrAll_length _ _ _ hd1, hg1l]
          rw [hb1, okBind, hd1, okBind, incrAll_ship_err N 2 sS xS yS hos
            (by rw [hS.1]; decide) hS.2 (by omega) g2 hg2l, errBind]
  · intro hnB hnD hnS hBD hBS hDS hhoriz
    obtain ⟨g1, hb1⟩ := incrAll_ship_ok N 4 bS xB yB hob hyB
      (fun h => by
        rcases horB with h2 | h2
        · exact absurd h2 h
        · have h3 : ¬N < yB + 4 := fun hlt => hnB ⟨h2, hlt⟩
          omega) _ hg0l
    have hg1l : g1.length = N := by rw [incrAll_length _ _ _ hb1, hg0l]
    obtain ⟨g2, hd1⟩ := incrAll_ship_ok N 3 dS xD yD hod hyD
      (fun h => by
        rcases horD with h2 | h2
        · exact absurd h2 h
        · have h3 : ¬N < yD + 3 := fun hlt => hnD ⟨h2, hlt⟩
          omega) g1 hg1l
    have hg2l : g2.length = N := by rw [incrAll_length _ _ _ hd1, hg1l]
    obtain ⟨g3, hs1⟩ := incrAll_ship_ok N 2 sS xS yS hos hyS
      (fun h => by
        rcases horS with h2 | h2
        · exact absurd h2 h
        · have h3 : ¬N < yS + 2 := fun hlt => hnS ⟨h2, hlt⟩
          omega) g2 hg2l
    have hall : incrAll (shipCells 4 bS ++ (shipCells 3 dS ++ shipCells 2 sS))
        (generateEmptyGridArray N) = Except.ok g3 := by
      rw [incrAll_append, hb1, okBind, incrAll_append, hd1, okBind, hs1]
    obtain ⟨hg3l, hcell, hrow⟩ := grid_facts_of_incrAll N _ g3 hall
    have hle1 : ∀ a, (shipCells 4 bS ++ (shipCells 3 dS ++ shipCells 2 sS)).count a ≤ 1 :=
      fun a => count_le_one_of_nodup_disjoint _ _ _
        (shipCells_nodup_any 4 bS xB yB hob) (shipCells_nodup_any 3 dS xD yD hod)
        (shipCells_nodup_any 2 sS xS yS hos) hBD hBS hDS a
    have hclean := clean_rows_of_count_le_one N _ g3 hg3l hcell hle1
    have hbadrow : ∃ row ∈ g3, row.length ≠ N := by
      rcases hhoriz with ⟨hh, hovr⟩ | ⟨hh, hovr⟩ | ⟨hh, hovr⟩
      · apply bad_row_of_horizontal_over N _ g3 hall xB yB 4 hyB hovr (by omega)
        apply List.mem_append.mpr
        exact Or.inl (by
          rw [shipCells_horizontal 4 bS xB yB hob hh]
          exact List.mem_map.mpr ⟨3, List.mem_range.mpr (by omega), rfl⟩)
      · apply bad_row_of_horizontal_over N _ g3 hall xD yD 3 hyD hovr (by omega)
        apply List.mem_append.mpr
        refine Or.inr (List.mem_append.mpr (Or.inl ?_))
        rw [shipCells_horizontal 3 dS xD yD hod hh]
        exact List.mem_map.mpr ⟨2, List.mem_range.mpr (by omega), rfl⟩
      · apply bad_row_of_horizontal_over N _ g3 hall xS yS 2 hyS hovr (by omega)
        apply List.mem_append.mpr
        refine Or.inr (List.mem_append.mpr (Or.inr ?_))
        rw [shipCells_horizontal 2 sS xS yS hos hh]
        exact List.mem_map.mpr ⟨1, List.mem_range.mpr (by omega), rfl⟩
    have hser := scanGrid_overEdge N g3 0 0 hclean hbadrow
    rw [validate_unfold_geom N p bS dS sS hpb hpd hps hschema]
    rw [hb1, okBind, hd1, okBind, hs1, okBind, hser, errBind]

/-- C1 amended witness: at N = 5, the vertical-overflow payload fails with the
runtime type error and the horizontal-overflow payload fails with the over-the-edge
error. -/
theorem validate_out_of_bounds_amended_witness :
    validateShipPlacement 5 cxVerticalOOB = Except.error VErr.typeErr ∧
    validateShipPlacement 5 horizOOBPayload = Except.error VErr.overEdge := by
  constructor
  · exact (validate_out_of_bounds_amended 5 cxVerticalOOB
      ⟨[0, 2], "vertical"⟩ ⟨[1, 0], "horizontal"⟩ ⟨[1, 1], "horizontal"⟩
      0 2 1 0 1 1 rfl rfl rfl rfl (by decide) (by decide) (by decide)
      (by decide) (by decide) (by decide) (by decide) (by decide) (by decide)
      (by decide) (by decide) (by decide)).1 (Or.inl (by decide))
  · exact (validate_out_of_bounds_amended 5 horizOOBPayload
      ⟨[3, 0], "horizontal"⟩ ⟨[0, 2], "horizontal"⟩ ⟨[0, 1], "horizontal"⟩
      3 0 0 2 0 1 rfl rfl rfl rfl (by decide) (by decide) (by decide)
      (by decide) (by decide) (by decide) (by decide) (by decide) (by decide)
      (by decide) (by decide) (by decide)).2 (by decide) (by decide) (by decide)
      (by decide) (by decide) (by decide) (Or.inl (by decide))

end MainValidationLemmas

/-- C1 counterexample: on a 5-wide board, a vertical Battleship at the in-bounds
origin (0,2) extends to rows 2–5; `validateShipPlacement` fails with the JavaScript
`TypeError` raised while populating a grid row that does not exist, which is a
different kind of failure than the out-of-bounds over-the-edge error the claim
requires. -/
theorem vertical_overflow_fails_with_typeErr :
    validateShipPlacement 5 cxVerticalOOB = Except.error VErr.typeErr ∧
    VErr.typeErr ≠ VErr.overEdge ∧
    (cxVerticalOOB.battleship = some ⟨[0, 2], "vertical"⟩ ∧
      (0 : Int) ≤ 0 ∧ (0 : Int) ≤ 4 ∧ (2 : Int) ≤ 4 ∧ 4 < 2 + 4) := by
  exact ⟨rfl, by decide, rfl, by decide, by decide, by decide, by decide⟩

/-- C4 counterexample: on a 5-wide board the Destroyer and Submarine both occupy
square (row 2, column 0), yet `validateShipPlacement` fails with the over-the-edge
error (the Battleship's row-0 overflow is detected first), not with an overlap
error naming a shared coordinate. -/
theorem overlap_masked_by_overEdge :
    ((2, 0) ∈ shipCells (shipLength ShipType.destroyer) ⟨[0, 2], "horizontal"⟩ ∧
      (2, 0) ∈ shipCells (shipLength ShipType.submarine) ⟨[0, 2], "horizontal"⟩) ∧
    validateShipPlacement 5 cxMaskedOverlap = Except.error VErr.overEdge := by
  exact ⟨⟨by decide, by decide⟩, rfl⟩

/-- C5: a payload whose Battleship orientation is the invalid string `diagonal`
passes `validateShipPlacement` without any schema error — `Joi.string().allow(...)`
does not restrict the value set — so the schema-error claim fails for bad
orientation values (the string is silently treated as vertical). -/
theorem bad_orientation_passes_schema :
    badOrientationPayload.battleship = some ⟨[0, 0], "diagonal"⟩ ∧
    "diagonal" ≠ "vertical" ∧ "diagonal" ≠ "horizontal" ∧
    validateShipPlacement 5 badOrientationPayload =
      Except.ok badOrientationPayload := by
  exact ⟨rfl, by decide, by decide, rfl⟩

end Battleship
